import Mathlib

/-!
Verification of `scripts/extract_proof_data.py`: the artifact-extraction and
encoding pipeline that converts a binary proof and verification key into a
hex-encoded bundle (a JSON document `proofs/soroban_data.json` and a shell
export file `proofs/proof_data.sh`).

Modelling choices:
* Files are byte sequences, modelled as `List Nat` with each entry `< 256`
  (Python's `bytes`).
* The file system is a partial map `String → Option (List Nat)` from paths
  (relative to the project root) to contents; `none` means the file is absent.
* `bytes.hex()` is modelled by `bytesToHex`.
* `json.load` is modelled by an arbitrary parameter
  `p : List Nat → Option JVal` (the Python stdlib parser is an external
  collaborator); `p content = none` models a `json.JSONDecodeError`.
* `json.dump(obj, f, indent=2)` is modelled by `dumpJson` over the JSON value
  type `JVal` (integers model the numeric fragment used here), faithful to
  CPython's text layout incl. `ensure_ascii=True` escaping.
* The pipeline `main` is modelled by `run`, returning either the ordered list
  of missing required paths (the `sys.exit(1)` branch), a parse error (the
  uncaught `JSONDecodeError`), or the ordered list of `(path, content)` writes.
  All outputs of the script are ASCII (`ensure_ascii` hex/decimal text), so
  written text is re-read as its code points (`strBytes`).
-/

/-- Lowercase hex digit for a value `< 16`, as produced by `bytes.hex()`. -/
def hexDigit (n : Nat) : Char :=
  if n < 10 then Char.ofNat (48 + n) else Char.ofNat (87 + n)

/-- Two lowercase hex characters for one byte. -/
def byteHex (b : Nat) : List Char :=
  [hexDigit (b / 16), hexDigit (b % 16)]

/-- `bytes.hex()`: two lowercase hex characters per byte, no separators.
This is the body of `read_binary_file` applied to the file's bytes. -/
def bytesToHex (bs : List Nat) : String :=
  String.mk (bs.flatMap byteHex)

/-- Value of one hex character, `none` when the character is not a
lowercase hex digit. -/
def hexVal (c : Char) : Option Nat :=
  if 48 ≤ c.toNat ∧ c.toNat ≤ 57 then some (c.toNat - 48)
  else if 97 ≤ c.toNat ∧ c.toNat ≤ 102 then some (c.toNat - 87)
  else none

/-- Standard hex decoding: pairs of hex characters back to bytes. -/
def hexToBytes : List Char → Option (List Nat)
  | [] => some []
  | c1 :: c2 :: rest =>
    match hexVal c1, hexVal c2, hexToBytes rest with
    | some h, some l, some bs => some ((16 * h + l) :: bs)
    | _, _, _ => none
  | [_] => none

/-- JSON values, as handled by Python's `json` module (the integer fragment of
numbers; `vk.json` content is treated opaquely by the script, so any value may
appear under `vk_json`). -/
inductive JVal where
  | null : JVal
  | bool : Bool → JVal
  | num : Int → JVal
  | str : String → JVal
  | arr : List JVal → JVal
  | obj : List (String × JVal) → JVal

/-- Four lowercase hex digits, as in CPython's `\u%04x` escapes. -/
def hex4 (n : Nat) : List Char :=
  [hexDigit (n / 4096 % 16), hexDigit (n / 256 % 16), hexDigit (n / 16 % 16), hexDigit (n % 16)]

/-- CPython `json` escaping of one character with `ensure_ascii=True`:
short escapes for quote, backslash and common control characters, `\uXXXX`
(with surrogate pairs beyond the BMP) for other control and non-ASCII
characters. -/
def escChar (c : Char) : List Char :=
  if c = '"' then ['\\', '"']
  else if c = '\\' then ['\\', '\\']
  else if c = '\n' then ['\\', 'n']
  else if c = '\r' then ['\\', 'r']
  else if c = '\t' then ['\\', 't']
  else if c.toNat = 8 then ['\\', 'b']
  else if c.toNat = 12 then ['\\', 'f']
  else if 32 ≤ c.toNat ∧ c.toNat ≤ 126 then [c]
  else if c.toNat < 65536 then '\\' :: 'u' :: hex4 c.toNat
  else
    let n := c.toNat - 65536
    ('\\' :: 'u' :: hex4 (55296 + n / 1024)) ++ ('\\' :: 'u' :: hex4 (56320 + n % 1024))

/-- CPython `json` string escaping (`ensure_ascii=True`). -/
def escStr (s : String) : String :=
  String.mk (s.data.flatMap escChar)

/-- `indent`-many spaces at nesting level `lvl` for `json.dump(..., indent=2)`. -/
def indentStr (lvl : Nat) : String :=
  String.mk (List.replicate (2 * lvl) ' ')

/-- `json.dump(v, f, indent=2)` text, with explicit recursion fuel (any fuel
at least the nesting depth of `v` gives the exact CPython output; `dumpJson`
passes `sizeOf v`, which always suffices). -/
def dumpFuel : Nat → Nat → JVal → String
  | 0, _, _ => ""
  | _ + 1, _, .null => "null"
  | _ + 1, _, .bool b => if b then "true" else "false"
  | _ + 1, _, .num n => toString n
  | _ + 1, _, .str s => "\"" ++ escStr s ++ "\""
  | _ + 1, _, .arr [] => "[]"
  | f + 1, lvl, .arr (x :: xs) =>
    "[\n" ++
      String.intercalate ",\n"
        ((x :: xs).map (fun v => indentStr (lvl + 1) ++ dumpFuel f (lvl + 1) v)) ++
      "\n" ++ indentStr lvl ++ "]"
  | _ + 1, _, .obj [] => "\x7b\x7d"
  | f + 1, lvl, .obj (kv :: kvs) =>
    "\x7b\n" ++
      String.intercalate ",\n"
        ((kv :: kvs).map (fun kv =>
          indentStr (lvl + 1) ++ "\"" ++ escStr kv.1 ++ "\": " ++ dumpFuel f (lvl + 1) kv.2)) ++
      "\n" ++ indentStr lvl ++ "\x7d"

mutual

/-- Structural size of a JSON value, used as recursion fuel for `dumpJson`
(it strictly bounds the nesting depth). -/
def jsize : JVal → Nat
  | .null => 1
  | .bool _ => 1
  | .num _ => 1
  | .str _ => 1
  | .arr xs => 1 + jsizeList xs
  | .obj kvs => 1 + jsizeFields kvs

/-- Size of a list of JSON values. -/
def jsizeList : List JVal → Nat
  | [] => 0
  | x :: xs => 1 + jsize x + jsizeList xs

/-- Size of a list of JSON object fields. -/
def jsizeFields : List (String × JVal) → Nat
  | [] => 0
  | (_, v) :: kvs => 1 + jsize v + jsizeFields kvs

end

/-- Serialization of a JSON value exactly as `json.dump(v, f, indent=2)`
writes it. -/
def dumpJson (v : JVal) : String :=
  dumpFuel (jsize v) 0 v

/-- Input and output paths, relative to the project root, as computed in
`main` from `script_dir` (`proofs_dir = <project_root>/proofs`). -/
def proofFile : String := "proofs/proof/proof"

/-- Path of the binary verification key. -/
def vkFile : String := "proofs/vk/vk"

/-- Path of the verification-key JSON description. -/
def vkJsonFile : String := "proofs/vk.json"

/-- Path of the optional public-inputs file: computed by `main` but never
read and never written. -/
def publicInputsFile : String := "proofs/proof/public_inputs"

/-- Path of the JSON output document. -/
def outputFile : String := "proofs/soroban_data.json"

/-- Path of the shell-export output document. -/
def exportFile : String := "proofs/proof_data.sh"

/-- The ordered list of required input paths that are absent, built exactly
as `main` builds `missing_files` (proof, then vk, then vk.json). -/
def requiredMissing (fs : String → Option (List Nat)) : List String :=
  (if (fs proofFile).isNone then [proofFile] else []) ++
  (if (fs vkFile).isNone then [vkFile] else []) ++
  (if (fs vkJsonFile).isNone then [vkJsonFile] else [])

/-- Content of `proofs/proof_data.sh` as written by `main`: a bash header,
then four `export` assignments; the two hex values are interpolated inside
double quotes, the two sizes are interpolated bare. -/
def shellContent (proof_hex : String) (proof_size : Nat) (vk_hex : String) (vk_size : Nat) :
    String :=
  "#!/bin/bash\n" ++
  "# Auto-generated proof data for Soroban deployment\n\n" ++
  "export PROOF_HEX=\"" ++ proof_hex ++ "\"\n" ++
  "export PROOF_SIZE=" ++ toString proof_size ++ "\n" ++
  "export VK_HEX=\"" ++ vk_hex ++ "\"\n" ++
  "export VK_SIZE=" ++ toString vk_size ++ "\n"

/-- Outcome of one invocation of the script. -/
inductive RunResult where
  | missingInputs : List String → RunResult
  | jsonError : RunResult
  | success : List (String × String) → RunResult
deriving DecidableEq

/-- The pipeline of `main`, as a function of the JSON parser `p` (modelling
`json.load`) and the file system `fs`. Mirrors the source: existence check
with aggregated missing list and exit 1; hex conversion of proof and vk with
`size = len(hex) // 2`; JSON parse of `vk.json` (uncaught parse error aborts
before any write); then the two writes, `soroban_data.json` first. -/
def run (p : List Nat → Option JVal) (fs : String → Option (List Nat)) : RunResult :=
  match fs proofFile, fs vkFile, fs vkJsonFile with
  | some proofBytes, some vkBytes, some vkJsonBytes =>
    let proof_hex := bytesToHex proofBytes
    let proof_size := proof_hex.length / 2
    let vk_hex := bytesToHex vkBytes
    let vk_size := vk_hex.length / 2
    match p vkJsonBytes with
    | none => .jsonError
    | some vk_json =>
      let output_data := JVal.obj
        [("proof_hex", .str proof_hex),
         ("proof_size_bytes", .num proof_size),
         ("vk_hex", .str vk_hex),
         ("vk_size_bytes", .num vk_size),
         ("vk_json", vk_json)]
      .success
        [(outputFile, dumpJson output_data),
         (exportFile, shellContent proof_hex proof_size vk_hex vk_size)]
  | _, _, _ => .missingInputs (requiredMissing fs)

/-- Process exit code of a run: 0 on success, 1 for the missing-inputs
`sys.exit(1)` and for an uncaught `JSONDecodeError`. -/
def exitCode : RunResult → Nat
  | .success _ => 0
  | _ => 1

/-- The `(path, content)` writes a run performs (none unless it succeeds). -/
def resultWrites : RunResult → List (String × String)
  | .success ws => ws
  | _ => []

/-- Bytes of written text. The script's outputs are pure ASCII
(`ensure_ascii=True` JSON and hex/decimal shell text), where UTF-8 bytes
coincide with code points. -/
def strBytes (s : String) : List Nat :=
  s.data.map Char.toNat

/-- Applying a list of writes to the file system, in order. -/
def applyWrites (ws : List (String × String)) (fs : String → Option (List Nat)) :
    String → Option (List Nat) :=
  ws.foldl (fun acc w => fun q => if q = w.1 then some (strBytes w.2) else acc q) fs

/-- Look up the content written to the shell-export file. -/
def exportWrite (r : RunResult) : Option String :=
  (resultWrites r).lookup exportFile

/-- Look up the content written to the JSON output file. -/
def outputWrite (r : RunResult) : Option String :=
  (resultWrites r).lookup outputFile

/-- Substring test on character lists (used to state quoting claims). -/
def containsSub (needle : List Char) : List Char → Bool
  | [] => needle.isEmpty
  | c :: rest => needle.isPrefixOf (c :: rest) || containsSub needle rest

/-- Example file system: proof bytes `0x01 0x02 0xFF`, vk byte `0x00`,
`vk.json` containing the two ASCII bytes of an empty JSON object. -/
def fsEx : String → Option (List Nat) := fun q =>
  if q = proofFile then some [1, 2, 255]
  else if q = vkFile then some [0]
  else if q = vkJsonFile then some [123, 125]
  else none

/-- Example parser: accepts exactly the bytes of `fsEx`'s `vk.json` as the
empty JSON object. -/
def pEx : List Nat → Option JVal := fun b =>
  if b = [123, 125] then some (.obj []) else none

/-- Parser that rejects everything (models `json.load` raising on malformed
content). -/
def pReject : List Nat → Option JVal := fun _ => none

/-- Example file system with the proof binary and `vk.json` absent. -/
def fsMiss : String → Option (List Nat) := fun q =>
  if q = vkFile then some [0] else none

/-- Example file system whose proof binary exists but is empty. -/
def fsEmpty : String → Option (List Nat) := fun q =>
  if q = proofFile then some []
  else if q = vkFile then some [171]
  else if q = vkJsonFile then some [123, 125]
  else none

/-- `fsEx` with a public-inputs file added. -/
def fsPub : String → Option (List Nat) := fun q =>
  if q = publicInputsFile then some [7] else fsEx q

/-- The exact shell-export text the script writes for the inputs of `fsEx`. -/
def shellEx : String :=
  "#!/bin/bash\n# Auto-generated proof data for Soroban deployment\n\nexport PROOF_HEX=\"0102ff\"\nexport PROOF_SIZE=3\nexport VK_HEX=\"00\"\nexport VK_SIZE=1\n"

theorem hexVal_hexDigit (n : Nat) (h : n < 16) : hexVal (hexDigit n) = some n := by
  interval_cases n <;> decide

theorem bytesToHex_cons (b : Nat) (bs : List Nat) :
    (bytesToHex (b :: bs)).data = byteHex b ++ (bytesToHex bs).data := by
  simp [bytesToHex]

theorem hexToBytes_bytesToHex (bs : List Nat) (h : ∀ b ∈ bs, b < 256) :
    hexToBytes (bytesToHex bs).data = some bs := by
  induction bs with
  | nil => rfl
  | cons b bs ih =>
    have hb : b < 256 := h b (List.mem_cons_self b bs)
    have hdiv : b / 16 < 16 := Nat.div_lt_of_lt_mul hb
    have hmod : b % 16 < 16 := Nat.mod_lt b (by norm_num)
    have ih' := ih (fun x hx => h x (List.mem_cons_of_mem b hx))
    rw [bytesToHex_cons]
    simp only [byteHex, List.cons_append, List.nil_append]
    rw [show ((hexDigit (b / 16) :: hexDigit (b % 16) :: (bytesToHex bs).data) =
      hexDigit (b / 16) :: hexDigit (b % 16) :: (bytesToHex bs).data) from rfl]
    unfold hexToBytes
    rw [hexVal_hexDigit _ hdiv, hexVal_hexDigit _ hmod, ih']
    simp [Nat.div_add_mod]

theorem bytesToHex_length (bs : List Nat) : (bytesToHex bs).length = 2 * bs.length := by
  show (bs.flatMap byteHex).length = 2 * bs.length
  induction bs with
  | nil => rfl
  | cons b bs ih =>
    simp only [List.flatMap_cons, List.length_append, List.length_cons, List.length_nil, ih,
      byteHex]
    omega

theorem bytesToHex_halfLength (bs : List Nat) : (bytesToHex bs).length / 2 = bs.length := by
  rw [bytesToHex_length]
  omega

theorem run_success_raw (p : List Nat → Option JVal) (fs : String → Option (List Nat))
    (pb vb jb : List Nat) (vj : JVal)
    (h1 : fs proofFile = some pb) (h2 : fs vkFile = some vb) (h3 : fs vkJsonFile = some jb)
    (hp : p jb = some vj) :
    run p fs = .success
      [(outputFile, dumpJson (JVal.obj
          [("proof_hex", .str (bytesToHex pb)),
           ("proof_size_bytes", .num (((bytesToHex pb).length / 2 : Nat))),
           ("vk_hex", .str (bytesToHex vb)),
           ("vk_size_bytes", .num (((bytesToHex vb).length / 2 : Nat))),
           ("vk_json", vj)])),
       (exportFile, shellContent (bytesToHex pb) ((bytesToHex pb).length / 2)
          (bytesToHex vb) ((bytesToHex vb).length / 2))] := by
  simp only [run, h1, h2, h3, hp]

theorem run_success_eq (p : List Nat → Option JVal) (fs : String → Option (List Nat))
    (pb vb jb : List Nat) (vj : JVal)
    (h1 : fs proofFile = some pb) (h2 : fs vkFile = some vb) (h3 : fs vkJsonFile = some jb)
    (hp : p jb = some vj) :
    run p fs = .success
      [(outputFile, dumpJson (JVal.obj
          [("proof_hex", .str (bytesToHex pb)),
           ("proof_size_bytes", .num pb.length),
           ("vk_hex", .str (bytesToHex vb)),
           ("vk_size_bytes", .num vb.length),
           ("vk_json", vj)])),
       (exportFile, shellContent (bytesToHex pb) pb.length (bytesToHex vb) vb.length)] := by
  have h := run_success_raw p fs pb vb jb vj h1 h2 h3 hp
  rwa [bytesToHex_halfLength pb, bytesToHex_halfLength vb] at h

theorem run_only_reads (p : List Nat → Option JVal) (fs1 fs2 : String → Option (List Nat))
    (h1 : fs1 proofFile = fs2 proofFile) (h2 : fs1 vkFile = fs2 vkFile)
    (h3 : fs1 vkJsonFile = fs2 vkJsonFile) :
    run p fs1 = run p fs2 := by
  unfold run requiredMissing
  rw [h1, h2, h3]

theorem applyWrites_notMem (ws : List (String × String)) (fs : String → Option (List Nat))
    (q : String) (h : ∀ w ∈ ws, q ≠ w.1) :
    applyWrites ws fs q = fs q := by
  induction ws generalizing fs with
  | nil => rfl
  | cons w ws ih =>
    show applyWrites ws (fun r => if r = w.1 then some (strBytes w.2) else fs r) q = fs q
    rw [ih _ (fun w' hw' => h w' (List.mem_cons_of_mem w hw'))]
    exact if_neg (h w (List.mem_cons_self w ws))

theorem resultWrites_run (p : List Nat → Option JVal) (fs : String → Option (List Nat)) :
    (resultWrites (run p fs)).map Prod.fst = [] ∨
      (resultWrites (run p fs)).map Prod.fst = [outputFile, exportFile] := by
  cases h1 : fs proofFile with
  | none => left; simp only [run, h1, resultWrites, List.map_nil]
  | some pb =>
    cases h2 : fs vkFile with
    | none => left; simp only [run, h1, h2, resultWrites, List.map_nil]
    | some vb =>
      cases h3 : fs vkJsonFile with
      | none => left; simp only [run, h1, h2, h3, resultWrites, List.map_nil]
      | some jb =>
        cases hp : p jb with
        | none => left; simp only [run, h1, h2, h3, hp, resultWrites, List.map_nil]
        | some vj =>
          right
          rw [run_success_raw p fs pb vb jb vj h1 h2 h3 hp]
          rfl

/-- C1: for every byte sequence, the hex encoding produced by
`read_binary_file` is the lowercase two-characters-per-byte hex
representation, decoding it yields exactly the original bytes, and the
bytes `0x01 0x02 0xFF` encode to `"0102ff"`. -/
theorem hex_roundtrip (bs : List Nat) (h : ∀ b ∈ bs, b < 256) :
    hexToBytes (bytesToHex bs).data = some bs ∧ bytesToHex [1, 2, 255] = "0102ff" :=
  ⟨hexToBytes_bytesToHex bs h, by decide⟩

/-- Witness for C1 at the spec's example input `0x01 0x02 0xFF`. -/
theorem hex_roundtrip_witness :
    hexToBytes (bytesToHex [1, 2, 255]).data = some [1, 2, 255] ∧
      bytesToHex [1, 2, 255] = "0102ff" :=
  hex_roundtrip [1, 2, 255] (by decide)

/-- C2: when the three required inputs are present and `vk.json` parses, the
run writes to `proofs/soroban_data.json` the JSON document with exactly the
five fields `proof_hex`, `proof_size_bytes`, `vk_hex`, `vk_size_bytes`,
`vk_json`, the two hex fields being the hex encodings of the source bytes and
`vk_json` the parsed value unmodified (the text is the image of the
well-formed five-field object under the `json.dump` serializer). -/
theorem success_bundle_fields (p : List Nat → Option JVal) (fs : String → Option (List Nat))
    (pb vb jb : List Nat) (vj : JVal)
    (h1 : fs proofFile = some pb) (h2 : fs vkFile = some vb) (h3 : fs vkJsonFile = some jb)
    (hp : p jb = some vj) :
    outputWrite (run p fs) = some (dumpJson (JVal.obj
      [("proof_hex", .str (bytesToHex pb)),
       ("proof_size_bytes", .num pb.length),
       ("vk_hex", .str (bytesToHex vb)),
       ("vk_size_bytes", .num vb.length),
       ("vk_json", vj)])) := by
  rw [outputWrite, run_success_eq p fs pb vb jb vj h1 h2 h3 hp]
  rfl

/-- Witness for C2 at the concrete file system `fsEx`. -/
theorem success_bundle_fields_witness :
    outputWrite (run pEx fsEx) = some (dumpJson (JVal.obj
      [("proof_hex", .str (bytesToHex [1, 2, 255])),
       ("proof_size_bytes", .num 3),
       ("vk_hex", .str (bytesToHex [0])),
       ("vk_size_bytes", .num 1),
       ("vk_json", .obj [])])) :=
  success_bundle_fields pEx fsEx [1, 2, 255] [0] [123, 125] (.obj []) rfl rfl rfl rfl

/-- C3: the missing-file check reports exactly the absent required paths (all
of them, in the fixed order), exits with code 1 and performs no write when
any is absent, and does not block the run when none is absent. -/
theorem missing_inputs_reported (p : List Nat → Option JVal) (fs : String → Option (List Nat)) :
    (∀ q ∈ [proofFile, vkFile, vkJsonFile], (q ∈ requiredMissing fs ↔ fs q = none)) ∧
      (∀ q ∈ requiredMissing fs, q ∈ [proofFile, vkFile, vkJsonFile]) ∧
      (if requiredMissing fs = [] then ∀ m, run p fs ≠ .missingInputs m
        else run p fs = .missingInputs (requiredMissing fs) ∧
          exitCode (run p fs) = 1 ∧ resultWrites (run p fs) = []) := by
  cases h1 : fs proofFile with
  | none =>
    cases h2 : fs vkFile with
    | none =>
      cases h3 : fs vkJsonFile with
      | none => simp_all [requiredMissing, run, exitCode, resultWrites, proofFile, vkFile, vkJsonFile]
      | some jb => simp_all [requiredMissing, run, exitCode, resultWrites, proofFile, vkFile, vkJsonFile]
    | some vb =>
      cases h3 : fs vkJsonFile with
      | none => simp_all [requiredMissing, run, exitCode, resultWrites, proofFile, vkFile, vkJsonFile]
      | some jb => simp_all [requiredMissing, run, exitCode, resultWrites, proofFile, vkFile, vkJsonFile]
  | some pb =>
    cases h2 : fs vkFile with
    | none =>
      cases h3 : fs vkJsonFile with
      | none => simp_all [requiredMissing, run, exitCode, resultWrites, proofFile, vkFile, vkJsonFile]
      | some jb => simp_all [requiredMissing, run, exitCode, resultWrites, proofFile, vkFile, vkJsonFile]
    | some vb =>
      cases h3 : fs vkJsonFile with
      | none => simp_all [requiredMissing, run, exitCode, resultWrites, proofFile, vkFile, vkJsonFile]
      | some jb =>
        refine ⟨by simp [requiredMissing, h1, h2, h3], by simp [requiredMissing, h1, h2, h3], ?_⟩
        rw [if_pos (by simp [requiredMissing, h1, h2, h3])]
        intro m
        cases hp : p jb with
        | none => rw [show run p fs = .jsonError by simp only [run, h1, h2, h3, hp]]; intro hc; cases hc
        | some vj => rw [run_success_raw p fs pb vb jb vj h1 h2 h3 hp]; intro hc; cases hc

/-- Witness for C3: with the proof binary and `vk.json` absent, both are
reported, the exit code is 1 and nothing is written. -/
theorem missing_inputs_reported_witness :
    run pEx fsMiss = .missingInputs [proofFile, vkJsonFile] ∧
      exitCode (run pEx fsMiss) = 1 ∧ resultWrites (run pEx fsMiss) = [] := by
  have h := (missing_inputs_reported pEx fsMiss).2.2
  rw [(by decide : requiredMissing fsMiss = [proofFile, vkJsonFile])] at h
  rw [if_neg (by decide)] at h
  exact h

/-- C4 counterexample: on the concrete inputs of `fsEx` the run succeeds and
writes `proofs/proof_data.sh`, but the written text contains the bare
assignments `PROOF_SIZE=3` and `VK_SIZE=1`: the two size values are not
double-quoted, refuting the claim that each of the four values is
double-quoted. -/
theorem size_values_unquoted_cex :
    exportWrite (run pEx fsEx) = some shellEx ∧
      containsSub "PROOF_SIZE=\"".data shellEx.data = false ∧
      containsSub "VK_SIZE=\"".data shellEx.data = false ∧
      containsSub "export PROOF_SIZE=3\n".data shellEx.data = true ∧
      containsSub "export VK_SIZE=1\n".data shellEx.data = true := by
  refine ⟨by decide, by decide, by decide, by decide, by decide⟩

/-- C4 (amended): on every successful run the shell file defines exactly the
four exported variables `PROOF_HEX`, `PROOF_SIZE`, `VK_HEX`, `VK_SIZE`
derived from the bundle data; the two hex values are double-quoted in the
written assignments, while the two size values are written bare. -/
theorem export_vars_quoting (p : List Nat → Option JVal) (fs : String → Option (List Nat))
    (pb vb jb : List Nat) (vj : JVal)
    (h1 : fs proofFile = some pb) (h2 : fs vkFile = some vb) (h3 : fs vkJsonFile = some jb)
    (hp : p jb = some vj) :
    exportWrite (run p fs) = some
      ("#!/bin/bash\n" ++
       "# Auto-generated proof data for Soroban deployment\n\n" ++
       "export PROOF_HEX=\"" ++ bytesToHex pb ++ "\"\n" ++
       "export PROOF_SIZE=" ++ toString pb.length ++ "\n" ++
       "export VK_HEX=\"" ++ bytesToHex vb ++ "\"\n" ++
       "export VK_SIZE=" ++ toString vb.length ++ "\n") := by
  rw [exportWrite, run_success_eq p fs pb vb jb vj h1 h2 h3 hp]
  rfl

/-- Witness for the amended C4 at the concrete file system `fsEx`. -/
theorem export_vars_quoting_witness :
    exportWrite (run pEx fsEx) = some
      ("#!/bin/bash\n" ++
       "# Auto-generated proof data for Soroban deployment\n\n" ++
       "export PROOF_HEX=\"" ++ bytesToHex [1, 2, 255] ++ "\"\n" ++
       "export PROOF_SIZE=" ++ toString (3 : Nat) ++ "\n" ++
       "export VK_HEX=\"" ++ bytesToHex [0] ++ "\"\n" ++
       "export VK_SIZE=" ++ toString (1 : Nat) ++ "\n") :=
  export_vars_quoting pEx fsEx [1, 2, 255] [0] [123, 125] (.obj []) rfl rfl rfl rfl

/-- C5: for every encoded artifact, the hex string has even length, its
length is twice the byte count, and `size = len(hex) // 2` (the computation
in `main`) equals the exact byte count of the source file. -/
theorem artifact_size_exact (bs : List Nat) :
    (bytesToHex bs).length = 2 * bs.length ∧ (bytesToHex bs).length % 2 = 0 ∧
      (bytesToHex bs).length / 2 = bs.length :=
  ⟨bytesToHex_length bs, by rw [bytesToHex_length]; omega, bytesToHex_halfLength bs⟩

/-- C6: when `vk.json` does not parse as JSON, the run aborts with the parse
error, exits with a non-zero status and writes neither output file. -/
theorem invalid_vk_json_aborts (p : List Nat → Option JVal) (fs : String → Option (List Nat))
    (pb vb jb : List Nat)
    (h1 : fs proofFile = some pb) (h2 : fs vkFile = some vb) (h3 : fs vkJsonFile = some jb)
    (hp : p jb = none) :
    run p fs = .jsonError ∧ exitCode (run p fs) = 1 ∧ resultWrites (run p fs) = [] := by
  have h : run p fs = .jsonError := by simp only [run, h1, h2, h3, hp]
  exact ⟨h, by rw [h]; rfl, by rw [h]; rfl⟩

/-- Witness for C6: all inputs present, parser rejects the `vk.json` bytes. -/
theorem invalid_vk_json_witness :
    run pReject fsEx = .jsonError ∧ exitCode (run pReject fsEx) = 1 ∧
      resultWrites (run pReject fsEx) = [] :=
  invalid_vk_json_aborts pReject fsEx [1, 2, 255] [0] [123, 125] rfl rfl rfl rfl

/-- C7: the run is a deterministic function of the input file contents, and
its writes land only on the two output paths, which are not inputs; hence
running the pipeline again on the file system left by a first run gives the
same result and byte-identical output contents. -/
theorem rerun_idempotent (p : List Nat → Option JVal) (fs : String → Option (List Nat)) :
    run p (applyWrites (resultWrites (run p fs)) fs) = run p fs ∧
      resultWrites (run p (applyWrites (resultWrites (run p fs)) fs)) =
        resultWrites (run p fs) := by
  have key : ∀ q : String, q = proofFile ∨ q = vkFile ∨ q = vkJsonFile →
      applyWrites (resultWrites (run p fs)) fs q = fs q := by
    intro q hq
    apply applyWrites_notMem
    intro w hw
    have hw1 : w.1 ∈ (resultWrites (run p fs)).map Prod.fst := List.mem_map_of_mem Prod.fst hw
    rcases resultWrites_run p fs with h | h
    · rw [h] at hw1
      exact absurd hw1 (List.not_mem_nil _)
    · rw [h] at hw1
      simp only [List.mem_cons, List.not_mem_nil, or_false] at hw1
      rcases hw1 with h1 | h1 <;> rw [h1] <;> rcases hq with rfl | rfl | rfl <;> decide
  have hrun := run_only_reads p (applyWrites (resultWrites (run p fs)) fs) fs
    (key proofFile (Or.inl rfl)) (key vkFile (Or.inr (Or.inl rfl)))
    (key vkJsonFile (Or.inr (Or.inr rfl)))
  exact ⟨hrun, by rw [hrun]⟩

/-- C8: the public-inputs path is never read: two file systems that differ
only at that path (presence or content) give identical run results, hence
identical success status and identical output contents. -/
theorem public_inputs_inert (p : List Nat → Option JVal)
    (fs1 fs2 : String → Option (List Nat))
    (h : ∀ q : String, q ≠ publicInputsFile → fs1 q = fs2 q) :
    run p fs1 = run p fs2 :=
  run_only_reads p fs1 fs2 (h proofFile (by decide)) (h vkFile (by decide))
    (h vkJsonFile (by decide))

/-- Witness for C8: adding a public-inputs file to `fsEx` leaves the run
result unchanged. -/
theorem public_inputs_inert_witness : run pEx fsPub = run pEx fsEx :=
  public_inputs_inert pEx fsPub fsEx (fun q hq => by
    show (if q = publicInputsFile then some [7] else fsEx q) = fsEx q
    rw [if_neg hq])

/-- C9: a required input that exists but is empty is not treated as missing:
the run still succeeds, the corresponding hex string is empty, its size is 0,
and both output files are written. -/
theorem empty_proof_accepted (p : List Nat → Option JVal) (fs : String → Option (List Nat))
    (vb jb : List Nat) (vj : JVal)
    (h1 : fs proofFile = some []) (h2 : fs vkFile = some vb) (h3 : fs vkJsonFile = some jb)
    (hp : p jb = some vj) :
    requiredMissing fs = [] ∧
      run p fs = .success
        [(outputFile, dumpJson (JVal.obj
            [("proof_hex", .str ""),
             ("proof_size_bytes", .num 0),
             ("vk_hex", .str (bytesToHex vb)),
             ("vk_size_bytes", .num vb.length),
             ("vk_json", vj)])),
         (exportFile, shellContent "" 0 (bytesToHex vb) vb.length)] := by
  constructor
  · simp [requiredMissing, h1, h2, h3]
  · exact run_success_eq p fs [] vb jb vj h1 h2 h3 hp

/-- Witness for C9 at the concrete file system `fsEmpty`. -/
theorem empty_proof_accepted_witness :
    requiredMissing fsEmpty = [] ∧
      run pEx fsEmpty = .success
        [(outputFile, dumpJson (JVal.obj
            [("proof_hex", .str ""),
             ("proof_size_bytes", .num 0),
             ("vk_hex", .str (bytesToHex [171])),
             ("vk_size_bytes", .num 1),
             ("vk_json", .obj [])])),
         (exportFile, shellContent "" 0 (bytesToHex [171]) 1)] :=
  empty_proof_accepted pEx fsEmpty [171] [123, 125] (.obj []) rfl rfl rfl rfl

theorem hexDigit_mem_charset (n : Nat) (h : n < 16) :
    hexDigit n ∈ "0123456789abcdef".data := by
  interval_cases n <;> decide

/-- C10: every character of an encoded hex string is one of `0-9a-f`; in
particular no double quote and no backslash can occur, so the double-quoted
shell assignments never need escaping. -/
theorem hex_chars_shell_safe (bs : List Nat) (h : ∀ b ∈ bs, b < 256) :
    (∀ c ∈ (bytesToHex bs).data, c ∈ "0123456789abcdef".data) ∧
      '"' ∉ (bytesToHex bs).data ∧ '\\' ∉ (bytesToHex bs).data := by
  have main : ∀ c ∈ (bytesToHex bs).data, c ∈ "0123456789abcdef".data := by
    intro c hc
    rw [show (bytesToHex bs).data = bs.flatMap byteHex from rfl, List.mem_flatMap] at hc
    obtain ⟨b, hb, hcb⟩ := hc
    have hb256 := h b hb
    have hdiv : b / 16 < 16 := by omega
    have hmod : b % 16 < 16 := by omega
    simp only [byteHex, List.mem_cons, List.not_mem_nil, or_false] at hcb
    rcases hcb with rfl | rfl
    · exact hexDigit_mem_charset _ hdiv
    · exact hexDigit_mem_charset _ hmod
  refine ⟨main, fun hmem => ?_, fun hmem => ?_⟩
  · have hq := main _ hmem
    revert hq
    decide
  · have hq := main _ hmem
    revert hq
    decide

/-- Witness for C10 at the spec's example bytes. -/
theorem hex_chars_shell_safe_witness :
    '"' ∉ (bytesToHex [1, 2, 255]).data ∧ '\\' ∉ (bytesToHex [1, 2, 255]).data :=
  (hex_chars_shell_safe [1, 2, 255] (by decide)).2
